import Mathlib

/-!
Shallow embedding of shiny/render/_coordmap.py: extraction of a serializable
coordinate map from a rendered matplotlib figure (get_coordmap,
get_coordmap_panel) and its enrichment from a plotnine declarative plot
specification (get_coordmap_plotnine, _get_mappings, _is_log_trans,
_is_reverse_trans).

Numbers that are Python floats are modelled as rationals. Python
dictionaries with optional keys become structures with Option fields.
Python exceptions are modelled with Except over a small error type that
distinguishes the exception sites relevant to the development.
-/

namespace Shiny

/-- Error type standing for the Python exceptions the embedded code can
raise: IndexError from positional lookups, KeyError from a missing column
of the layout table, the KeyError raised by writing into a missing
panel_vars dictionary, and AttributeError from a missing attribute. -/
inductive PyErr where
  | indexError : PyErr
  | keyErrorColumn : PyErr
  | keyErrorPanelVars : PyErr
  | attributeError : PyErr
deriving DecidableEq, Repr

/-- A numeric cell of the plotnine layout table. Python distinguishes
plain floats from library wrapper types (numpy.int64 and the like); the
float builtin maps both to a plain float with the same numeric value. -/
inductive PyNum where
  | pyFloat : ℚ → PyNum
  | npNumber : ℚ → PyNum
deriving DecidableEq, Repr

/-- The Python float builtin applied to a layout cell: a plain float
holding the numeric value of the cell. -/
def pyFloatOf : PyNum → ℚ
  | PyNum.pyFloat q => q
  | PyNum.npNumber q => q

/-- Python list indexing: a nonnegative index counts from the front, a
negative index counts from the back, and anything out of range is an
IndexError (here: none). -/
def pyGet {α : Type} (l : List α) (i : ℤ) : Option α :=
  if 0 ≤ i then l.get? i.toNat
  else if 0 ≤ i + l.length then l.get? (i + l.length).toNat
  else none

/-- Modelled from the spec: figure pixel dimensions, the CoordmapDims
TypedDict of shiny/types.py (not under src). -/
structure CoordmapDims where
  width : ℚ
  height : ℚ
deriving DecidableEq, Repr

/-- Modelled from the spec: data-space rectangle of a panel, the
CoordmapPanelDomain TypedDict of shiny/types.py (not under src). -/
structure CoordmapPanelDomain where
  left : ℚ
  right : ℚ
  bottom : ℚ
  top : ℚ
deriving DecidableEq, Repr

/-- Modelled from the spec: pixel-space rectangle of a panel with
top-left origin, the CoordmapPanelRange TypedDict of shiny/types.py. -/
structure CoordmapPanelRange where
  left : ℚ
  right : ℚ
  bottom : ℚ
  top : ℚ
deriving DecidableEq, Repr

/-- Modelled from the spec: log-scale bases per axis, none when the axis
is not logarithmic; the CoordmapPanelLog TypedDict of shiny/types.py. -/
structure CoordmapPanelLog where
  x : Option ℚ
  y : Option ℚ
deriving DecidableEq, Repr

/-- Modelled from the spec: names of the variables bound to the x and y
aesthetics and to up to two paneling variables; none stands for an absent
key or a None value. The CoordmapPanelMapping TypedDict of
shiny/types.py. -/
structure CoordmapPanelMapping where
  x : Option String
  y : Option String
  panelvar1 : Option String
  panelvar2 : Option String
deriving DecidableEq, Repr

/-- Modelled from the spec: concrete values of the paneling variables for
one panel, coerced to plain floats. -/
structure CoordmapPanelVars where
  panelvar1 : Option ℚ
  panelvar2 : Option ℚ
deriving DecidableEq, Repr

/-- Modelled from the spec: one panel of the coordinate map, the
CoordmapPanel TypedDict of shiny/types.py. The panel_vars key is absent
(none) unless enrichment adds it. -/
structure CoordmapPanel where
  panel : ℕ
  row : ℕ
  col : ℕ
  domain : CoordmapPanelDomain
  range : CoordmapPanelRange
  log : CoordmapPanelLog
  mapping : CoordmapPanelMapping
  panel_vars : Option CoordmapPanelVars
deriving DecidableEq, Repr

/-- Modelled from the spec: the top-level coordinate map, the Coordmap
TypedDict of shiny/types.py. -/
structure Coordmap where
  panels : List CoordmapPanel
  dims : CoordmapDims
deriving DecidableEq, Repr

/-- A matplotlib axis scale as read by get_coordmap_panel: its name, its
base (meaningful when the name is log), and the forward transform of its
internal _transform object. -/
structure MplScale where
  name : String
  base : ℚ
  transform : ℚ → ℚ

/-- A matplotlib Axes object, restricted to the members get_coordmap_panel
reads: x and y limits, the transData data-to-pixel point transform, the
start indices of the subplot-spec row and column spans, and the x and y
axis scales. -/
structure Axes where
  xlim : ℚ × ℚ
  ylim : ℚ × ℚ
  transData : ℚ × ℚ → ℚ × ℚ
  rowspanStart : ℕ
  colspanStart : ℕ
  xscale : MplScale
  yscale : MplScale

/-- A matplotlib Figure, restricted to the members get_coordmap reads:
physical size in inches, resolution in dots per inch, and the ordered
list of axes. -/
structure Figure where
  size_inches : ℚ × ℚ
  dpi : ℚ
  axes : List Axes

/-- Embeds get_coordmap_panel of _coordmap.py. The source feeds the flat
list [left, bottom, right, top] to transData.transform, which matplotlib
treats as the two points (left, bottom) and (right, top); the vertical
pixel outputs are flipped to a top-left origin by subtracting from the
figure height. A log axis records its base and replaces the matching
domain edges with the forward transform of the original limits. -/
def get_coordmap_panel (axes : Axes) (panel_num : ℕ) (height : ℚ) : CoordmapPanel :=
  let domain0 : CoordmapPanelDomain :=
    { left := axes.xlim.1, right := axes.xlim.2,
      bottom := axes.ylim.1, top := axes.ylim.2 }
  let lb := axes.transData (domain0.left, domain0.bottom)
  let rt := axes.transData (domain0.right, domain0.top)
  let range : CoordmapPanelRange :=
    { left := lb.1, right := rt.1,
      bottom := height - lb.2, top := height - rt.2 }
  let logx : Option ℚ :=
    if axes.xscale.name = "log" then some axes.xscale.base else none
  let domain1 : CoordmapPanelDomain :=
    if axes.xscale.name = "log" then
      { domain0 with left := axes.xscale.transform domain0.left,
                     right := axes.xscale.transform domain0.right }
    else domain0
  let logy : Option ℚ :=
    if axes.yscale.name = "log" then some axes.yscale.base else none
  let domain2 : CoordmapPanelDomain :=
    if axes.yscale.name = "log" then
      { domain1 with top := axes.yscale.transform domain1.top,
                     bottom := axes.yscale.transform domain1.bottom }
    else domain1
  { panel := panel_num,
    row := axes.rowspanStart + 1,
    col := axes.colspanStart + 1,
    domain := domain2,
    range := range,
    log := { x := logx, y := logy },
    mapping := { x := none, y := none, panelvar1 := none, panelvar2 := none },
    panel_vars := none }

/-- The panel-building loop of get_coordmap: for i, axes in
enumerate(all_axes), append get_coordmap_panel(axes, i + 1, height). -/
def coordmapPanels : List Axes → ℕ → ℚ → List CoordmapPanel
  | [], _, _ => []
  | ax :: rest, i, height =>
      get_coordmap_panel ax (i + 1) height :: coordmapPanels rest (i + 1) height

/-- Embeds get_coordmap of _coordmap.py: pixel dimensions are size in
inches times dots per inch, and one panel is built per axes object. The
declared return type allows None but the body always returns a map. -/
def get_coordmap (fig : Figure) : Option Coordmap :=
  let dims : CoordmapDims :=
    { width := fig.size_inches.1 * fig.dpi,
      height := fig.size_inches.2 * fig.dpi }
  let panels := coordmapPanels fig.axes 0 dims.height
  some { panels := panels, dims := dims }

/-- A plotnine transform object (mizani trans), restricted to what
_coordmap.py reads: the name of its Python class and its base attribute
(meaningful for log transforms). -/
structure Trans where
  typeName : String
  base : ℚ
deriving DecidableEq, Repr

/-- A plotnine scale as read by get_coordmap_plotnine: its _trans
transform object. -/
structure PlotnineScale where
  trans : Trans
deriving DecidableEq, Repr

/-- One row of the plotnine layout table p.layout.layout: the PANEL
number, the 1-based SCALE_X and SCALE_Y indices, and the remaining
columns as an optional-valued map from column name to numeric cell. -/
structure LayoutRow where
  PANEL : ℤ
  SCALE_X : ℤ
  SCALE_Y : ℤ
  vals : String → Option PyNum

/-- The plotnine coordinate system as read by _coordmap.py: the name of
its Python class and its optional trans_x and trans_y attributes (none
models hasattr returning False). -/
structure PlotnineCoord where
  typeName : String
  trans_x : Option Trans
  trans_y : Option Trans
deriving DecidableEq, Repr

/-- The plotnine facet object as read by _get_mappings: the name of its
Python class field by field: cols and rows carry the facet_grid column
and row variables, vars the facet_wrap variables. -/
structure PlotnineFacet where
  typeName : String
  cols : List String
  rows : List String
  vars : List String
deriving DecidableEq, Repr

/-- The plotnine layout object p.layout: the layout table, the ordered
x and y scale lists, the coordinate system and the facet. -/
structure PlotnineLayout where
  layout : List LayoutRow
  panel_scales_x : List PlotnineScale
  panel_scales_y : List PlotnineScale
  coord : PlotnineCoord
  facet : PlotnineFacet

/-- A plotnine ggplot object as read by _coordmap.py: the aesthetic
mapping entries for x and y (none models an absent key), the layout
attribute, which is only populated once _build has run (none before),
and the layout that _build computes for this plot. -/
structure PlotnineFigure where
  mapping_x : Option String
  mapping_y : Option String
  layout : Option PlotnineLayout
  builtLayout : PlotnineLayout

/-- Embeds copy.deepcopy on a plotnine figure. On immutable values a
structural deep copy is the value itself; the store-based embedding
below additionally models the fresh allocation it performs. -/
def deepcopy (p : PlotnineFigure) : PlotnineFigure := p

/-- Embeds p._build(): populates the lazily computed layout attribute.
Idempotent. -/
def PlotnineFigure.build (p : PlotnineFigure) : PlotnineFigure :=
  { p with layout := some p.builtLayout }

/-- Embeds _is_log_trans of _coordmap.py: re.fullmatch("log.*_trans",
type(trans).__name__). The class name must be log, then anything, then
_trans; equivalently it starts with log, ends with _trans, and is at
least nine characters long. (The regex dot excludes newlines, which do
not occur in Python class names.) -/
def _is_log_trans (trans : Trans) : Bool :=
  List.isPrefixOf "log".data trans.typeName.data
    && List.isSuffixOf "_trans".data trans.typeName.data
    && 9 ≤ trans.typeName.data.length

/-- Embeds _is_reverse_trans of _coordmap.py: the class name is exactly
reverse_trans. -/
def _is_reverse_trans (trans : Trans) : Bool :=
  trans.typeName == "reverse_trans"

/-- Embeds _get_mappings of _coordmap.py. Reads the x and y aesthetic
names, swaps them under coord_flip, then adds paneling variable names:
for facet_grid, panelvar1 is the first column variable when columns
exist (panelvar2 then being the first row variable when rows also
exist), else the first row variable when rows exist; for facet_wrap,
panelvar1 is the first wrap variable, an IndexError when there is none.
Accessing p.layout before _build is an AttributeError. -/
def _get_mappings (p : PlotnineFigure) : Except PyErr CoordmapPanelMapping :=
  match p.layout with
  | none => Except.error PyErr.attributeError
  | some lay =>
    let m0 : CoordmapPanelMapping :=
      { x := p.mapping_x, y := p.mapping_y, panelvar1 := none, panelvar2 := none }
    let m1 : CoordmapPanelMapping :=
      if lay.coord.typeName = "coord_flip" then { m0 with x := m0.y, y := m0.x } else m0
    if lay.facet.typeName = "facet_grid" then
      if 0 < lay.facet.cols.length then
        let m2 : CoordmapPanelMapping := { m1 with panelvar1 := lay.facet.cols.head? }
        if 0 < lay.facet.rows.length then
          Except.ok { m2 with panelvar2 := lay.facet.rows.head? }
        else Except.ok m2
      else
        if 0 < lay.facet.rows.length then
          Except.ok { m1 with panelvar1 := lay.facet.rows.head? }
        else Except.ok m1
    else if lay.facet.typeName = "facet_wrap" then
      match lay.facet.vars with
      | [] => Except.error PyErr.indexError
      | v :: _ => Except.ok { m1 with panelvar1 := some v }
    else Except.ok m1

/-- The straight-line tail of the per-panel loop of get_coordmap_plotnine
(the log, reverse and coordinate-transform steps), once the governing x
and y scales are resolved: a log scale transform overrides the log base
recorded by the extractor, a reverse transform negates the matching
domain edges in place, and a log transform on the coordinate system
overrides the log base once more. -/
def applyScaleTransforms (lay : PlotnineLayout) (xscale yscale : PlotnineScale)
    (panel3 : CoordmapPanel) : CoordmapPanel :=
  let panel4 : CoordmapPanel :=
    if _is_log_trans xscale.trans then
      { panel3 with log := { panel3.log with x := some xscale.trans.base } }
    else panel3
  let panel5 : CoordmapPanel :=
    if _is_log_trans yscale.trans then
      { panel4 with log := { panel4.log with y := some yscale.trans.base } }
    else panel4
  let panel6 : CoordmapPanel :=
    if _is_reverse_trans xscale.trans then
      { panel5 with domain := { panel5.domain with
          left := -panel5.domain.left, right := -panel5.domain.right } }
    else panel5
  let panel7 : CoordmapPanel :=
    if _is_reverse_trans yscale.trans then
      { panel6 with domain := { panel6.domain with
          top := -panel6.domain.top, bottom := -panel6.domain.bottom } }
    else panel6
  let panel8 : CoordmapPanel :=
    match lay.coord.trans_x with
    | some t =>
      if _is_log_trans t then
        { panel7 with log := { panel7.log with x := some t.base } }
      else panel7
    | none => panel7
  let panel9 : CoordmapPanel :=
    match lay.coord.trans_y with
    | some t =>
      if _is_log_trans t then
        { panel8 with log := { panel8.log with y := some t.base } }
      else panel8
    | none => panel8
  panel9

/-- The body of the per-panel loop of get_coordmap_plotnine: attach the
shared mapping, read the layout row whose PANEL equals the panel number,
fill panel_vars from that row, resolve the governing x and y scales
through the 1-based SCALE_X and SCALE_Y indices, override the log bases
from log scale transforms, negate domain edges under reverse transforms,
and finally let a log coordinate-system transform override the log bases
again. -/
def enrichPanel (lay : PlotnineLayout) (mappings : CoordmapPanelMapping)
    (panel0 : CoordmapPanel) : Except PyErr CoordmapPanel :=
  let panel1 : CoordmapPanel := { panel0 with mapping := mappings }
  match lay.layout.find? (fun r => r.PANEL == (panel1.panel : ℤ)) with
  | none => Except.error PyErr.indexError
  | some layout_row =>
    let step2 : Except PyErr CoordmapPanel :=
      match panel1.mapping.panelvar1 with
      | none => Except.ok panel1
      | some pv1name =>
        match layout_row.vals pv1name with
        | none => Except.error PyErr.keyErrorColumn
        | some v =>
          Except.ok { panel1 with
            panel_vars := some { panelvar1 := some (pyFloatOf v), panelvar2 := none } }
    match step2 with
    | Except.error e => Except.error e
    | Except.ok panel2 =>
      let step3 : Except PyErr CoordmapPanel :=
        match panel2.mapping.panelvar2 with
        | none => Except.ok panel2
        | some pv2name =>
          match layout_row.vals pv2name with
          | none => Except.error PyErr.keyErrorColumn
          | some v =>
            match panel2.panel_vars with
            | none => Except.error PyErr.keyErrorPanelVars
            | some pv =>
              Except.ok { panel2 with
                panel_vars := some { pv with panelvar2 := some (pyFloatOf v) } }
      match step3 with
      | Except.error e => Except.error e
      | Except.ok panel3 =>
        match pyGet lay.panel_scales_x (layout_row.SCALE_X - 1) with
        | none => Except.error PyErr.indexError
        | some xscale =>
          match pyGet lay.panel_scales_y (layout_row.SCALE_Y - 1) with
          | none => Except.error PyErr.indexError
          | some yscale =>
            Except.ok (applyScaleTransforms lay xscale yscale panel3)

/-- The for-loop of get_coordmap_plotnine over coordmap panels, rebuilding
the panel list with each panel enriched; an exception aborts the call. -/
def enrichPanels (lay : PlotnineLayout) (mappings : CoordmapPanelMapping) :
    List CoordmapPanel → Except PyErr (List CoordmapPanel)
  | [] => Except.ok []
  | pl :: rest =>
    match enrichPanel lay mappings pl with
    | Except.error e => Except.error e
    | Except.ok pl2 =>
      match enrichPanels lay mappings rest with
      | Except.error e => Except.error e
      | Except.ok rest2 => Except.ok (pl2 :: rest2)

/-- The part of get_coordmap_plotnine that runs after the figure has been
extracted and the plot copy built: compute the shared mappings once and
enrich every panel. -/
def enrichBuilt (p : PlotnineFigure) (coordmap : Coordmap) :
    Except PyErr (Option Coordmap) :=
  match _get_mappings p with
  | Except.error e => Except.error e
  | Except.ok mappings =>
    match p.layout with
    | none => Except.error PyErr.attributeError
    | some lay =>
      match enrichPanels lay mappings coordmap.panels with
      | Except.error e => Except.error e
      | Except.ok panels2 => Except.ok (some { coordmap with panels := panels2 })

/-- Embeds get_coordmap_plotnine of _coordmap.py: delegate to
get_coordmap, propagate None, deep-copy the plot, build it, and enrich
every panel. -/
def get_coordmap_plotnine (p : PlotnineFigure) (fig : Figure) :
    Except PyErr (Option Coordmap) :=
  match get_coordmap fig with
  | none => Except.ok none
  | some coordmap => enrichBuilt (PlotnineFigure.build (deepcopy p)) coordmap

/-- Store-based embedding of get_coordmap_plotnine for the frame claim.
Caller-held objects live in two heaps, one of plotnine figures and one
of matplotlib figures, addressed by position; the caller passes
addresses. The line p = deepcopy(p) allocates a fresh cell holding a
structural copy, and p._build() mutates that fresh cell in place; the
rest of the call only reads. Dangling addresses have no Python
counterpart and return an error with the heaps untouched. -/
def get_coordmap_plotnine_st (ps : List PlotnineFigure) (figs : List Figure)
    (pi fi : ℕ) : (List PlotnineFigure × List Figure) × Except PyErr (Option Coordmap) :=
  match ps.get? pi, figs.get? fi with
  | some p, some fig =>
    match get_coordmap fig with
    | none => ((ps, figs), Except.ok none)
    | some coordmap =>
      let ps1 := ps ++ [p]
      let ps2 := ps1.set ps.length (PlotnineFigure.build p)
      ((ps2, figs), enrichBuilt (PlotnineFigure.build p) coordmap)
  | _, _ => ((ps, figs), Except.error PyErr.attributeError)

/-- Test fixture: one matplotlib axes with a log x scale (base 10), a
linear y scale, an affine data-to-pixel transform, and grid position
(0, 0). -/
def axFx : Axes :=
  { xlim := (1, 100), ylim := (0, 10),
    transData := fun q => (3 * q.1 + 5, 2 * q.2 + 7),
    rowspanStart := 0, colspanStart := 0,
    xscale := { name := "log", base := 10, transform := fun v => v / 2 },
    yscale := { name := "linear", base := 10, transform := fun v => v } }

/-- Test fixture: a 4 by 3 inch figure at 100 dpi with one axes. -/
def figFx : Figure := { size_inches := (4, 3), dpi := 100, axes := [axFx] }

/-- Test fixture: a rendered figure carrying no axes at all. -/
def figEmpty : Figure := { size_inches := (4, 3), dpi := 100, axes := [] }

/-- Test fixture: the layout-table row of panel 1, with columns cyl = 4
and am = 1 held as numpy numbers. -/
def rowFx : LayoutRow :=
  { PANEL := 1, SCALE_X := 1, SCALE_Y := 1,
    vals := fun s =>
      if s = "cyl" then some (PyNum.npNumber 4)
      else if s = "am" then some (PyNum.npNumber 1) else none }

/-- Test fixture: a plotnine layout with a log10 x scale transform, a
reverse y scale transform, a flipped coordinate system that itself
carries a log base 2 x transform, and a grid facet on cyl and am. -/
def layFx : PlotnineLayout :=
  { layout := [rowFx],
    panel_scales_x := [{ trans := { typeName := "log10_trans", base := 10 } }],
    panel_scales_y := [{ trans := { typeName := "reverse_trans", base := 10 } }],
    coord := { typeName := "coord_flip",
               trans_x := some { typeName := "log_trans", base := 2 },
               trans_y := none },
    facet := { typeName := "facet_grid", cols := ["cyl"], rows := ["am"], vars := [] } }

/-- Test fixture: a plotnine figure mapping x to wt and y to mpg, not
yet built, whose build step populates the layout above. -/
def pFx : PlotnineFigure :=
  { mapping_x := some "wt", mapping_y := some "mpg",
    layout := none, builtLayout := layFx }

/-- Expected panel extracted from the fixture figure. -/
def panelFx : CoordmapPanel :=
  { panel := 1, row := 1, col := 1,
    domain := { left := 1/2, right := 50, bottom := 0, top := 10 },
    range := { left := 8, right := 305, bottom := 293, top := 273 },
    log := { x := some 10, y := none },
    mapping := { x := none, y := none, panelvar1 := none, panelvar2 := none },
    panel_vars := none }

/-- Expected coordinate map extracted from the fixture figure. -/
def cmFx : Coordmap :=
  { panels := [panelFx], dims := { width := 400, height := 300 } }

/-- Expected shared mapping computed from the built fixture plot. -/
def mappingFx : CoordmapPanelMapping :=
  { x := some "mpg", y := some "wt", panelvar1 := some "cyl", panelvar2 := some "am" }

/-- Expected panel after enrichment of the fixture pair. -/
def panelEnrichedFx : CoordmapPanel :=
  { panel := 1, row := 1, col := 1,
    domain := { left := 1/2, right := 50, bottom := 0, top := -10 },
    range := { left := 8, right := 305, bottom := 293, top := 273 },
    log := { x := some 2, y := none },
    mapping := mappingFx,
    panel_vars := some { panelvar1 := some 4, panelvar2 := some 1 } }

/-- Expected coordinate map after enrichment of the fixture pair. -/
def cmEnrichedFx : Coordmap :=
  { panels := [panelEnrichedFx], dims := { width := 400, height := 300 } }

/-! ## Helper lemmas -/

/-- The panel numbers produced by the extraction loop starting at index i
are i + 1, i + 2, and so on, one per axes object. -/
lemma coordmapPanels_map_panel (axs : List Axes) (i : ℕ) (h : ℚ) :
    (coordmapPanels axs i h).map (fun pl => pl.panel) = List.range' (i + 1) axs.length := by
  induction axs generalizing i with
  | nil => simp [coordmapPanels]
  | cons ax rest ih =>
      simp only [coordmapPanels, List.map_cons, List.length_cons, List.range'_succ,
        List.cons.injEq]
      exact ⟨rfl, ih (i + 1)⟩

/-- The log base reported for x after the scale and coordinate steps: a
log coordinate transform wins, else a log x-scale transform, else the
incoming value survives. -/
lemma applyScaleTransforms_log_x (lay : PlotnineLayout) (xscale yscale : PlotnineScale)
    (p : CoordmapPanel) :
    (applyScaleTransforms lay xscale yscale p).log.x =
      (match lay.coord.trans_x with
       | some t =>
         if _is_log_trans t then some t.base
         else if _is_log_trans xscale.trans then some xscale.trans.base else p.log.x
       | none =>
         if _is_log_trans xscale.trans then some xscale.trans.base else p.log.x) := by
  unfold applyScaleTransforms
  cases hcx : lay.coord.trans_x <;> cases hcy : lay.coord.trans_y <;>
    by_cases h1 : _is_log_trans xscale.trans <;>
    by_cases h2 : _is_log_trans yscale.trans <;>
    by_cases h3 : _is_reverse_trans xscale.trans <;>
    by_cases h4 : _is_reverse_trans yscale.trans <;>
    simp [h1, h2, h3, h4] <;> split_ifs <;> simp

/-- The log base reported for y after the scale and coordinate steps. -/
lemma applyScaleTransforms_log_y (lay : PlotnineLayout) (xscale yscale : PlotnineScale)
    (p : CoordmapPanel) :
    (applyScaleTransforms lay xscale yscale p).log.y =
      (match lay.coord.trans_y with
       | some t =>
         if _is_log_trans t then some t.base
         else if _is_log_trans yscale.trans then some yscale.trans.base else p.log.y
       | none =>
         if _is_log_trans yscale.trans then some yscale.trans.base else p.log.y) := by
  unfold applyScaleTransforms
  cases hcx : lay.coord.trans_x <;> cases hcy : lay.coord.trans_y <;>
    by_cases h1 : _is_log_trans xscale.trans <;>
    by_cases h2 : _is_log_trans yscale.trans <;>
    by_cases h3 : _is_reverse_trans xscale.trans <;>
    by_cases h4 : _is_reverse_trans yscale.trans <;>
    simp [h1, h2, h3, h4] <;> split_ifs <;> simp

/-- The domain after the scale and coordinate steps: a reverse x-scale
transform negates left and right, a reverse y-scale transform negates
top and bottom, and nothing else touches the domain. -/
lemma applyScaleTransforms_domain (lay : PlotnineLayout) (xscale yscale : PlotnineScale)
    (p : CoordmapPanel) :
    (applyScaleTransforms lay xscale yscale p).domain.left =
      (if _is_reverse_trans xscale.trans then -p.domain.left else p.domain.left) ∧
    (applyScaleTransforms lay xscale yscale p).domain.right =
      (if _is_reverse_trans xscale.trans then -p.domain.right else p.domain.right) ∧
    (applyScaleTransforms lay xscale yscale p).domain.top =
      (if _is_reverse_trans yscale.trans then -p.domain.top else p.domain.top) ∧
    (applyScaleTransforms lay xscale yscale p).domain.bottom =
      (if _is_reverse_trans yscale.trans then -p.domain.bottom else p.domain.bottom) := by
  unfold applyScaleTransforms
  cases hcx : lay.coord.trans_x <;> cases hcy : lay.coord.trans_y <;>
    by_cases h1 : _is_log_trans xscale.trans <;>
    by_cases h2 : _is_log_trans yscale.trans <;>
    by_cases h3 : _is_reverse_trans xscale.trans <;>
    by_cases h4 : _is_reverse_trans yscale.trans <;>
    simp [h1, h2, h3, h4] <;> split_ifs <;> simp

/-- The scale and coordinate steps leave the panel number, grid position,
pixel range, mapping and panel_vars of a panel untouched. -/
lemma applyScaleTransforms_preserves (lay : PlotnineLayout) (xscale yscale : PlotnineScale)
    (p : CoordmapPanel) :
    (applyScaleTransforms lay xscale yscale p).panel = p.panel ∧
    (applyScaleTransforms lay xscale yscale p).row = p.row ∧
    (applyScaleTransforms lay xscale yscale p).col = p.col ∧
    (applyScaleTransforms lay xscale yscale p).range = p.range ∧
    (applyScaleTransforms lay xscale yscale p).mapping = p.mapping ∧
    (applyScaleTransforms lay xscale yscale p).panel_vars = p.panel_vars := by
  unfold applyScaleTransforms
  cases hcx : lay.coord.trans_x <;> cases hcy : lay.coord.trans_y <;>
    by_cases h1 : _is_log_trans xscale.trans <;>
    by_cases h2 : _is_log_trans yscale.trans <;>
    by_cases h3 : _is_reverse_trans xscale.trans <;>
    by_cases h4 : _is_reverse_trans yscale.trans <;>
    simp [h1, h2, h3, h4] <;> split_ifs <;> simp

/-- Inversion of a successful enrichPanel run: there are a layout row and
governing scales, and the result is applyScaleTransforms applied to an
intermediate panel that agrees with the input except that the shared
mapping is attached and panel_vars may be filled. -/
lemma enrichPanel_ok_shape (lay : PlotnineLayout) (m : CoordmapPanelMapping)
    (pl pl2 : CoordmapPanel) (hep : enrichPanel lay m pl = Except.ok pl2) :
    ∃ row xscale yscale panel3,
      List.find? (fun r => r.PANEL == (pl.panel : ℤ)) lay.layout = some row ∧
      pyGet lay.panel_scales_x (row.SCALE_X - 1) = some xscale ∧
      pyGet lay.panel_scales_y (row.SCALE_Y - 1) = some yscale ∧
      pl2 = applyScaleTransforms lay xscale yscale panel3 ∧
      panel3.panel = pl.panel ∧ panel3.row = pl.row ∧ panel3.col = pl.col ∧
      panel3.domain = pl.domain ∧ panel3.range = pl.range ∧ panel3.log = pl.log ∧
      panel3.mapping = m := by
  simp only [enrichPanel] at hep
  split at hep
  next => exact absurd hep (by simp)
  next row hrow =>
    cases hm1 : m.panelvar1 with
    | none =>
      simp only [hm1] at hep
      cases hm2 : m.panelvar2 with
      | none =>
        simp only [hm2] at hep
        cases hx : pyGet lay.panel_scales_x (row.SCALE_X - 1) with
        | none => simp [hx] at hep
        | some xscale =>
          simp only [hx] at hep
          cases hy : pyGet lay.panel_scales_y (row.SCALE_Y - 1) with
          | none => simp [hy] at hep
          | some yscale =>
            simp only [hy, Except.ok.injEq] at hep
            exact ⟨row, xscale, yscale, _, hrow, hx, hy, hep.symm,
              rfl, rfl, rfl, rfl, rfl, rfl, rfl⟩
      | some n2 =>
        simp only [hm2] at hep
        cases hv2 : row.vals n2 with
        | none => simp [hv2] at hep
        | some v2 =>
          simp only [hv2] at hep
          cases hpv : pl.panel_vars with
          | none => simp [hpv] at hep
          | some pv =>
            simp only [hpv] at hep
            cases hx : pyGet lay.panel_scales_x (row.SCALE_X - 1) with
            | none => simp [hx] at hep
            | some xscale =>
              simp only [hx] at hep
              cases hy : pyGet lay.panel_scales_y (row.SCALE_Y - 1) with
              | none => simp [hy] at hep
              | some yscale =>
                simp only [hy, Except.ok.injEq] at hep
                exact ⟨row, xscale, yscale, _, hrow, hx, hy, hep.symm,
                  rfl, rfl, rfl, rfl, rfl, rfl, rfl⟩
    | some n1 =>
      simp only [hm1] at hep
      cases hv1 : row.vals n1 with
      | none => simp [hv1] at hep
      | some v1 =>
        simp only [hv1] at hep
        cases hm2 : m.panelvar2 with
        | none =>
          simp only [hm2] at hep
          cases hx : pyGet lay.panel_scales_x (row.SCALE_X - 1) with
          | none => simp [hx] at hep
          | some xscale =>
            simp only [hx] at hep
            cases hy : pyGet lay.panel_scales_y (row.SCALE_Y - 1) with
            | none => simp [hy] at hep
            | some yscale =>
              simp only [hy, Except.ok.injEq] at hep
              exact ⟨row, xscale, yscale, _, hrow, hx, hy, hep.symm,
                rfl, rfl, rfl, rfl, rfl, rfl, rfl⟩
        | some n2 =>
          simp only [hm2] at hep
          cases hv2 : row.vals n2 with
          | none => simp [hv2] at hep
          | some v2 =>
            simp only [hv2] at hep
            cases hx : pyGet lay.panel_scales_x (row.SCALE_X - 1) with
            | none => simp [hx] at hep
            | some xscale =>
              simp only [hx] at hep
              cases hy : pyGet lay.panel_scales_y (row.SCALE_Y - 1) with
              | none => simp [hy] at hep
              | some yscale =>
                simp only [hy, Except.ok.injEq] at hep
                exact ⟨row, xscale, yscale, _, hrow, hx, hy, hep.symm,
                  rfl, rfl, rfl, rfl, rfl, rfl, rfl⟩

/-- Inversion of a successful enrichPanel run on the panel_vars field:
when the shared mapping declares panelvar1, its value is read from the
layout row of the panel and coerced to a plain float, and likewise for
panelvar2 when it is declared. -/
lemma enrichPanel_ok_panel_vars (lay : PlotnineLayout) (m : CoordmapPanelMapping)
    (pl pl2 : CoordmapPanel) (n1 : String)
    (hep : enrichPanel lay m pl = Except.ok pl2) (h1 : m.panelvar1 = some n1) :
    ∃ row v1,
      List.find? (fun r => r.PANEL == (pl.panel : ℤ)) lay.layout = some row ∧
      row.vals n1 = some v1 ∧
      ((m.panelvar2 = none ∧
        pl2.panel_vars = some { panelvar1 := some (pyFloatOf v1), panelvar2 := none }) ∨
       (∃ n2 v2, m.panelvar2 = some n2 ∧ row.vals n2 = some v2 ∧
        pl2.panel_vars = some { panelvar1 := some (pyFloatOf v1),
                                panelvar2 := some (pyFloatOf v2) })) := by
  simp only [enrichPanel] at hep
  split at hep
  next => exact absurd hep (by simp)
  next row hrow =>
    simp only [h1] at hep
    cases hv1 : row.vals n1 with
    | none => simp [hv1] at hep
    | some v1 =>
      simp only [hv1] at hep
      cases hm2 : m.panelvar2 with
      | none =>
        simp only [hm2] at hep
        cases hx : pyGet lay.panel_scales_x (row.SCALE_X - 1) with
        | none => simp [hx] at hep
        | some xscale =>
          simp only [hx] at hep
          cases hy : pyGet lay.panel_scales_y (row.SCALE_Y - 1) with
          | none => simp [hy] at hep
          | some yscale =>
            simp only [hy, Except.ok.injEq] at hep
            refine ⟨row, v1, hrow, hv1, Or.inl ⟨rfl, ?_⟩⟩
            rw [← hep]
            exact (applyScaleTransforms_preserves lay xscale yscale _).2.2.2.2.2
      | some n2 =>
        simp only [hm2] at hep
        cases hv2 : row.vals n2 with
        | none => simp [hv2] at hep
        | some v2 =>
          simp only [hv2] at hep
          cases hx : pyGet lay.panel_scales_x (row.SCALE_X - 1) with
          | none => simp [hx] at hep
          | some xscale =>
            simp only [hx] at hep
            cases hy : pyGet lay.panel_scales_y (row.SCALE_Y - 1) with
            | none => simp [hy] at hep
            | some yscale =>
              simp only [hy, Except.ok.injEq] at hep
              refine ⟨row, v1, hrow, hv1, Or.inr ⟨n2, v2, rfl, hv2, ?_⟩⟩
              rw [← hep]
              exact (applyScaleTransforms_preserves lay xscale yscale _).2.2.2.2.2

/-- The paneling-variable names produced by _get_mappings: for a grid
facet, panelvar1 is the first column variable when columns exist, with
panelvar2 the first row variable when rows also exist; the first row
variable lands in panelvar1 when there are no columns; a wrap facet puts
its first variable in panelvar1. -/
lemma get_mappings_panelvars (p : PlotnineFigure) (lay : PlotnineLayout)
    (mp : CoordmapPanelMapping) (hlay : p.layout = some lay)
    (hm : _get_mappings p = Except.ok mp) :
    (lay.facet.typeName = "facet_grid" →
      (∀ c cs, lay.facet.cols = c :: cs →
        mp.panelvar1 = some c ∧
        (∀ r rs, lay.facet.rows = r :: rs → mp.panelvar2 = some r) ∧
        (lay.facet.rows = [] → mp.panelvar2 = none)) ∧
      (lay.facet.cols = [] →
        (∀ r rs, lay.facet.rows = r :: rs →
          mp.panelvar1 = some r ∧ mp.panelvar2 = none) ∧
        (lay.facet.rows = [] → mp.panelvar1 = none ∧ mp.panelvar2 = none))) ∧
    (lay.facet.typeName = "facet_wrap" →
      ∀ v vs, lay.facet.vars = v :: vs →
        mp.panelvar1 = some v ∧ mp.panelvar2 = none) := by
  simp only [_get_mappings, hlay] at hm
  refine ⟨?_, ?_⟩
  · intro hgrid
    refine ⟨?_, ?_⟩
    · intro c cs hcols
      rcases hrows : lay.facet.rows with _ | ⟨r, rs⟩
      · rw [hgrid, hcols, hrows] at hm
        simp at hm
        subst hm
        refine ⟨by simp, ?_, ?_⟩
        · intro r rs hrows2
          exact absurd hrows2 (by simp)
        · intro _
          split <;> simp
      · rw [hgrid, hcols, hrows] at hm
        simp at hm
        subst hm
        refine ⟨by simp, ?_, ?_⟩
        · intro r2 rs2 hrows2
          injection hrows2 with h1 h2
          subst h1
          simp
        · intro hrows2
          exact absurd hrows2 (by simp)
    · intro hcolsnil
      refine ⟨?_, ?_⟩
      · intro r rs hrows
        rw [hgrid, hcolsnil, hrows] at hm
        simp at hm
        subst hm
        exact ⟨by simp, by split <;> simp⟩
      · intro hrowsnil
        rw [hgrid, hcolsnil, hrowsnil] at hm
        simp at hm
        subst hm
        constructor <;> (split <;> simp)
  · intro hwrap v vs hvars
    rw [hwrap, hvars] at hm
    simp at hm
    subst hm
    exact ⟨by simp, by split <;> simp⟩

/-! ## C1: panel count and enumeration order -/

/-- C1: for every figure with N axes, get_coordmap returns a coordinate
map with exactly N panels, numbered 1..N in the enumeration order of the
axes, each panel number unique. -/
theorem c1_panel_enumeration (fig : Figure) (cm : Coordmap)
    (h : get_coordmap fig = some cm) :
    cm.panels.length = fig.axes.length ∧
    cm.panels.map (fun pl => pl.panel) = List.range' 1 fig.axes.length ∧
    (cm.panels.map (fun pl => pl.panel)).Nodup := by
  simp only [get_coordmap, Option.some.injEq] at h
  subst h
  have hmap := coordmapPanels_map_panel fig.axes 0 (fig.size_inches.2 * fig.dpi)
  refine ⟨?_, ?_, ?_⟩
  · have := congrArg List.length hmap
    simpa using this
  · simpa using hmap
  · simp only [hmap]
    exact List.nodup_range' _ _

/-- Witness for C1 at the fixture figure with one axes object. -/
theorem c1_panel_enumeration_witness :
    get_coordmap figFx = some cmFx ∧
    cmFx.panels.length = figFx.axes.length ∧
    cmFx.panels.map (fun pl => pl.panel) = List.range' 1 figFx.axes.length ∧
    (cmFx.panels.map (fun pl => pl.panel)).Nodup := by
  have h : get_coordmap figFx = some cmFx := by
    simp [get_coordmap, figFx, coordmapPanels, get_coordmap_panel, axFx, cmFx, panelFx]
    norm_num
  exact ⟨h, c1_panel_enumeration figFx cmFx h⟩

/-! ## C2: vertical pixel inversion -/

/-- C2: the pixel range of a panel takes its horizontal entries directly
from the data-to-pixel transform of the (left, bottom) and (right, top)
domain corners, while the vertical entries are the figure height minus
the transformed bottom-origin values. -/
theorem c2_range_vertical_inversion (axes : Axes) (n : ℕ) (height : ℚ) :
    (get_coordmap_panel axes n height).range =
      { left := (axes.transData (axes.xlim.1, axes.ylim.1)).1,
        right := (axes.transData (axes.xlim.2, axes.ylim.2)).1,
        bottom := height - (axes.transData (axes.xlim.1, axes.ylim.1)).2,
        top := height - (axes.transData (axes.xlim.2, axes.ylim.2)).2 } := rfl

/-! ## C3: nullability of extract and enrich -/

/-- C3 counterexample: a figure with no introspectable axes at all still
gets a non-null coordinate map (with an empty panels list), so extract
does not return absent when the figure has no axes/geometry. -/
theorem c3_no_axes_still_some :
    figEmpty.axes = [] ∧ get_coordmap figEmpty ≠ none := by
  exact ⟨rfl, by simp [get_coordmap]⟩

/-- C3 as amended: get_coordmap always returns a coordinate map (the None
arm of its declared return type is never used), and get_coordmap_plotnine
returns a null coordinate map only when its internal get_coordmap call
did, hence never. -/
theorem c3_extract_total (p : PlotnineFigure) (fig : Figure) (r : Option Coordmap) :
    (get_coordmap fig).isSome = true ∧
    (get_coordmap_plotnine p fig = Except.ok r → r.isSome = true) := by
  refine ⟨by simp [get_coordmap], ?_⟩
  intro h
  unfold get_coordmap_plotnine at h
  cases hg : get_coordmap fig with
  | none => simp [get_coordmap] at hg
  | some cm =>
    rw [hg] at h
    unfold enrichBuilt at h
    cases hm : _get_mappings (PlotnineFigure.build (deepcopy p)) with
    | error e => rw [hm] at h; simp at h
    | ok m =>
      rw [hm] at h
      simp only [PlotnineFigure.build, deepcopy] at h
      cases he : enrichPanels p.builtLayout m cm.panels with
      | error e => rw [he] at h; simp at h
      | ok panels2 =>
        rw [he] at h
        simp only [Except.ok.injEq] at h
        simp [← h]

/-- Witness for C3 at the fixture pair, where enrichment succeeds and
returns a non-null coordinate map. -/
theorem c3_extract_total_witness :
    get_coordmap_plotnine pFx figFx = Except.ok (some cmEnrichedFx) ∧
    (get_coordmap figFx).isSome = true ∧
    (some cmEnrichedFx : Option Coordmap).isSome = true := by
  have h : get_coordmap_plotnine pFx figFx = Except.ok (some cmEnrichedFx) := by
    have hlx : _is_log_trans { typeName := "log10_trans", base := (10:ℚ) } = true := by decide
    have hly : _is_log_trans { typeName := "reverse_trans", base := (10:ℚ) } = false := by decide
    have hct : _is_log_trans { typeName := "log_trans", base := (2:ℚ) } = true := by decide
    have hrx : _is_reverse_trans { typeName := "log10_trans", base := (10:ℚ) } = false := by decide
    have hry : _is_reverse_trans { typeName := "reverse_trans", base := (10:ℚ) } = true := by decide
    simp [get_coordmap_plotnine, get_coordmap, figFx, coordmapPanels, get_coordmap_panel, axFx,
      deepcopy, PlotnineFigure.build, pFx, enrichBuilt, _get_mappings, layFx, enrichPanels,
      enrichPanel, rowFx, pyGet, applyScaleTransforms, hlx, hly, hct, hrx, hry,
      pyFloatOf, cmEnrichedFx, panelEnrichedFx, mappingFx]
    norm_num
  exact ⟨h, (c3_extract_total pFx figFx (some cmEnrichedFx)).1,
         (c3_extract_total pFx figFx (some cmEnrichedFx)).2 h⟩

/-! ## C4: matplotlib log scales in the extractor -/

/-- C4: an axis whose matplotlib scale is named log contributes its base
to the log entry and has its domain edges replaced by the forward scale
transform of the original limits; any other axis leaves the log entry
null and the domain edges at the raw limits. -/
theorem c4_log_scale_domain (axes : Axes) (n : ℕ) (height : ℚ) :
    (axes.xscale.name = "log" →
      (get_coordmap_panel axes n height).log.x = some axes.xscale.base ∧
      (get_coordmap_panel axes n height).domain.left = axes.xscale.transform axes.xlim.1 ∧
      (get_coordmap_panel axes n height).domain.right = axes.xscale.transform axes.xlim.2) ∧
    (¬ axes.xscale.name = "log" →
      (get_coordmap_panel axes n height).log.x = none ∧
      (get_coordmap_panel axes n height).domain.left = axes.xlim.1 ∧
      (get_coordmap_panel axes n height).domain.right = axes.xlim.2) ∧
    (axes.yscale.name = "log" →
      (get_coordmap_panel axes n height).log.y = some axes.yscale.base ∧
      (get_coordmap_panel axes n height).domain.bottom = axes.yscale.transform axes.ylim.1 ∧
      (get_coordmap_panel axes n height).domain.top = axes.yscale.transform axes.ylim.2) ∧
    (¬ axes.yscale.name = "log" →
      (get_coordmap_panel axes n height).log.y = none ∧
      (get_coordmap_panel axes n height).domain.bottom = axes.ylim.1 ∧
      (get_coordmap_panel axes n height).domain.top = axes.ylim.2) := by
  by_cases hx : axes.xscale.name = "log" <;> by_cases hy : axes.yscale.name = "log" <;>
    simp [get_coordmap_panel, hx, hy]

/-- Witness for C4 at the fixture axes, whose x scale is log base 10 and
whose y scale is linear. -/
theorem c4_log_scale_domain_witness :
    axFx.xscale.name = "log" ∧
    (get_coordmap_panel axFx 1 300).log.x = some axFx.xscale.base ∧
    (get_coordmap_panel axFx 1 300).domain.left = axFx.xscale.transform axFx.xlim.1 ∧
    (get_coordmap_panel axFx 1 300).domain.right = axFx.xscale.transform axFx.xlim.2 ∧
    ¬ axFx.yscale.name = "log" ∧
    (get_coordmap_panel axFx 1 300).log.y = none := by
  have t := c4_log_scale_domain axFx 1 300
  exact ⟨rfl, (t.1 rfl).1, (t.1 rfl).2.1, (t.1 rfl).2.2,
         by decide, (t.2.2.2 (by decide)).1⟩

/-! ## C5: authority ordering of log bases in enrichment -/

/-- C5: for a panel enriched by get_coordmap_plotnine, with the governing
scales resolved through the layout row, a logarithmic declarative scale
transform sets the final log base to its own base (overriding whatever
the rendering engine recorded) whenever the coordinate system carries no
logarithmic transform for that axis, and a logarithmic coordinate-system
transform overrides the log base again, axis by axis. -/
theorem c5_log_authority (lay : PlotnineLayout) (m : CoordmapPanelMapping)
    (pl pl2 : CoordmapPanel) (row : LayoutRow) (xscale yscale : PlotnineScale)
    (hep : enrichPanel lay m pl = Except.ok pl2)
    (hrow : List.find? (fun r => r.PANEL == (pl.panel : ℤ)) lay.layout = some row)
    (hx : pyGet lay.panel_scales_x (row.SCALE_X - 1) = some xscale)
    (hy : pyGet lay.panel_scales_y (row.SCALE_Y - 1) = some yscale) :
    ((∀ t, lay.coord.trans_x = some t → _is_log_trans t = false) →
      _is_log_trans xscale.trans = true → pl2.log.x = some xscale.trans.base) ∧
    (∀ t, lay.coord.trans_x = some t → _is_log_trans t = true →
      pl2.log.x = some t.base) ∧
    ((∀ t, lay.coord.trans_y = some t → _is_log_trans t = false) →
      _is_log_trans yscale.trans = true → pl2.log.y = some yscale.trans.base) ∧
    (∀ t, lay.coord.trans_y = some t → _is_log_trans t = true →
      pl2.log.y = some t.base) := by
  obtain ⟨row2, xs2, ys2, panel3, hrow2, hx2, hy2, hpl2, _, _, _, _, _, hlog, _⟩ :=
    enrichPanel_ok_shape lay m pl pl2 hep
  rw [hrow] at hrow2
  injection hrow2 with hroweq
  subst hroweq
  rw [hx] at hx2
  injection hx2 with hxeq
  subst hxeq
  rw [hy] at hy2
  injection hy2 with hyeq
  subst hyeq
  subst hpl2
  refine ⟨?_, ?_, ?_, ?_⟩
  · intro hno hsc
    rw [applyScaleTransforms_log_x]
    cases hc : lay.coord.trans_x with
    | none => simp [hsc]
    | some t => simp [hno t hc, hsc]
  · intro t hc hlt
    rw [applyScaleTransforms_log_x, hc]
    simp [hlt]
  · intro hno hsc
    rw [applyScaleTransforms_log_y]
    cases hc : lay.coord.trans_y with
    | none => simp [hsc]
    | some t => simp [hno t hc, hsc]
  · intro t hc hlt
    rw [applyScaleTransforms_log_y, hc]
    simp [hlt]

/-- Witness for C5 at the fixture layout, whose x scale transform is
log10_trans (base 10) while the coordinate system carries log_trans with
base 2: the coordinate-system base 2 wins. -/
theorem c5_log_authority_witness :
    enrichPanel layFx mappingFx panelFx = Except.ok panelEnrichedFx ∧
    List.find? (fun r => r.PANEL == (panelFx.panel : ℤ)) layFx.layout = some rowFx ∧
    pyGet layFx.panel_scales_x (rowFx.SCALE_X - 1) =
      some { trans := { typeName := "log10_trans", base := 10 } } ∧
    pyGet layFx.panel_scales_y (rowFx.SCALE_Y - 1) =
      some { trans := { typeName := "reverse_trans", base := 10 } } ∧
    layFx.coord.trans_x = some { typeName := "log_trans", base := 2 } ∧
    panelEnrichedFx.log.x = some 2 := by
  have hlx : _is_log_trans { typeName := "log10_trans", base := (10:ℚ) } = true := by decide
  have hly : _is_log_trans { typeName := "reverse_trans", base := (10:ℚ) } = false := by decide
  have hct : _is_log_trans { typeName := "log_trans", base := (2:ℚ) } = true := by decide
  have hrx : _is_reverse_trans { typeName := "log10_trans", base := (10:ℚ) } = false := by decide
  have hry : _is_reverse_trans { typeName := "reverse_trans", base := (10:ℚ) } = true := by decide
  have hep : enrichPanel layFx mappingFx panelFx = Except.ok panelEnrichedFx := by
    simp [enrichPanel, layFx, rowFx, mappingFx, panelFx, panelEnrichedFx, pyGet,
      applyScaleTransforms, hlx, hly, hct, hrx, hry, pyFloatOf]
  have hrow : List.find? (fun r => r.PANEL == (panelFx.panel : ℤ)) layFx.layout =
      some rowFx := by
    simp [layFx, rowFx, panelFx]
  have hx : pyGet layFx.panel_scales_x (rowFx.SCALE_X - 1) =
      some { trans := { typeName := "log10_trans", base := 10 } } := by
    simp [layFx, rowFx, pyGet]
  have hy : pyGet layFx.panel_scales_y (rowFx.SCALE_Y - 1) =
      some { trans := { typeName := "reverse_trans", base := 10 } } := by
    simp [layFx, rowFx, pyGet]
  refine ⟨hep, hrow, hx, hy, rfl, ?_⟩
  exact (c5_log_authority layFx mappingFx panelFx panelEnrichedFx rowFx _ _
    hep hrow hx hy).2.1 { typeName := "log_trans", base := 2 } rfl hct

/-! ## C6: reverse transforms negate domain edges -/

/-- C6: for a panel enriched by get_coordmap_plotnine, a scale transform
whose class name is exactly reverse_trans negates the matching domain
edges (left and right for x, top and bottom for y) relative to the
extracted panel, and the domain edges of an axis without a reverse
transform are unchanged by this step. -/
theorem c6_reverse_negation (lay : PlotnineLayout) (m : CoordmapPanelMapping)
    (pl pl2 : CoordmapPanel) (row : LayoutRow) (xscale yscale : PlotnineScale)
    (hep : enrichPanel lay m pl = Except.ok pl2)
    (hrow : List.find? (fun r => r.PANEL == (pl.panel : ℤ)) lay.layout = some row)
    (hx : pyGet lay.panel_scales_x (row.SCALE_X - 1) = some xscale)
    (hy : pyGet lay.panel_scales_y (row.SCALE_Y - 1) = some yscale) :
    (_is_reverse_trans xscale.trans = true →
      pl2.domain.left = -pl.domain.left ∧ pl2.domain.right = -pl.domain.right) ∧
    (_is_reverse_trans xscale.trans = false →
      pl2.domain.left = pl.domain.left ∧ pl2.domain.right = pl.domain.right) ∧
    (_is_reverse_trans yscale.trans = true →
      pl2.domain.top = -pl.domain.top ∧ pl2.domain.bottom = -pl.domain.bottom) ∧
    (_is_reverse_trans yscale.trans = false →
      pl2.domain.top = pl.domain.top ∧ pl2.domain.bottom = pl.domain.bottom) := by
  obtain ⟨row2, xs2, ys2, panel3, hrow2, hx2, hy2, hpl2, _, _, _, hdom, _, _, _⟩ :=
    enrichPanel_ok_shape lay m pl pl2 hep
  rw [hrow] at hrow2
  injection hrow2 with hroweq
  subst hroweq
  rw [hx] at hx2
  injection hx2 with hxeq
  subst hxeq
  rw [hy] at hy2
  injection hy2 with hyeq
  subst hyeq
  subst hpl2
  obtain ⟨hdl, hdr, hdt, hdb⟩ := applyScaleTransforms_domain lay xscale yscale panel3
  refine ⟨?_, ?_, ?_, ?_⟩ <;> intro hrev
  · rw [hdl, hdr, hdom]
    simp [hrev]
  · rw [hdl, hdr, hdom]
    simp [hrev]
  · rw [hdt, hdb, hdom]
    simp [hrev]
  · rw [hdt, hdb, hdom]
    simp [hrev]

/-- Witness for C6 at the fixture layout, whose y scale transform is
reverse_trans: top and bottom are negated, left and right are not. -/
theorem c6_reverse_negation_witness :
    enrichPanel layFx mappingFx panelFx = Except.ok panelEnrichedFx ∧
    _is_reverse_trans ({ trans := { typeName := "reverse_trans", base := 10 } } :
      PlotnineScale).trans = true ∧
    panelEnrichedFx.domain.top = -panelFx.domain.top ∧
    panelEnrichedFx.domain.bottom = -panelFx.domain.bottom ∧
    panelEnrichedFx.domain.left = panelFx.domain.left ∧
    panelEnrichedFx.domain.right = panelFx.domain.right := by
  have hlx : _is_log_trans { typeName := "log10_trans", base := (10:ℚ) } = true := by decide
  have hly : _is_log_trans { typeName := "reverse_trans", base := (10:ℚ) } = false := by decide
  have hct : _is_log_trans { typeName := "log_trans", base := (2:ℚ) } = true := by decide
  have hrx : _is_reverse_trans { typeName := "log10_trans", base := (10:ℚ) } = false := by decide
  have hry : _is_reverse_trans { typeName := "reverse_trans", base := (10:ℚ) } = true := by decide
  have hep : enrichPanel layFx mappingFx panelFx = Except.ok panelEnrichedFx := by
    simp [enrichPanel, layFx, rowFx, mappingFx, panelFx, panelEnrichedFx, pyGet,
      applyScaleTransforms, hlx, hly, hct, hrx, hry, pyFloatOf]
  have hrow : List.find? (fun r => r.PANEL == (panelFx.panel : ℤ)) layFx.layout =
      some rowFx := by
    simp [layFx, rowFx, panelFx]
  have hx : pyGet layFx.panel_scales_x (rowFx.SCALE_X - 1) =
      some { trans := { typeName := "log10_trans", base := 10 } } := by
    simp [layFx, rowFx, pyGet]
  have hy : pyGet layFx.panel_scales_y (rowFx.SCALE_Y - 1) =
      some { trans := { typeName := "reverse_trans", base := 10 } } := by
    simp [layFx, rowFx, pyGet]
  have t := c6_reverse_negation layFx mappingFx panelFx panelEnrichedFx rowFx _ _
    hep hrow hx hy
  exact ⟨hep, hry, (t.2.2.1 hry).1, (t.2.2.1 hry).2, (t.2.1 hrx).1, (t.2.1 hrx).2⟩

/-! ## C7: paneling variables and their per-panel values -/

/-- C7: the shared mapping assigns panelvar1 to the first column-facet
variable of a grid facet when columns exist (panelvar2 then being the
first row-facet variable when rows also exist), to the first row-facet
variable when only rows exist, and to the first wrap variable for a wrap
facet; and every declared paneling variable gets its concrete value for
a panel from the layout-table row of that panel, coerced to a plain float. -/
theorem c7_panelvars :
    (∀ (p : PlotnineFigure) (lay : PlotnineLayout) (mp : CoordmapPanelMapping),
      p.layout = some lay → _get_mappings p = Except.ok mp →
      ((lay.facet.typeName = "facet_grid" →
        (∀ c cs, lay.facet.cols = c :: cs →
          mp.panelvar1 = some c ∧
          (∀ r rs, lay.facet.rows = r :: rs → mp.panelvar2 = some r) ∧
          (lay.facet.rows = [] → mp.panelvar2 = none)) ∧
        (lay.facet.cols = [] →
          (∀ r rs, lay.facet.rows = r :: rs →
            mp.panelvar1 = some r ∧ mp.panelvar2 = none) ∧
          (lay.facet.rows = [] → mp.panelvar1 = none ∧ mp.panelvar2 = none))) ∧
      (lay.facet.typeName = "facet_wrap" →
        ∀ v vs, lay.facet.vars = v :: vs →
          mp.panelvar1 = some v ∧ mp.panelvar2 = none))) ∧
    (∀ (lay : PlotnineLayout) (m : CoordmapPanelMapping) (pl pl2 : CoordmapPanel)
      (n1 : String),
      enrichPanel lay m pl = Except.ok pl2 → m.panelvar1 = some n1 →
      ∃ row v1,
        List.find? (fun r => r.PANEL == (pl.panel : ℤ)) lay.layout = some row ∧
        row.vals n1 = some v1 ∧
        ((m.panelvar2 = none ∧
          pl2.panel_vars = some { panelvar1 := some (pyFloatOf v1), panelvar2 := none }) ∨
         (∃ n2 v2, m.panelvar2 = some n2 ∧ row.vals n2 = some v2 ∧
          pl2.panel_vars = some { panelvar1 := some (pyFloatOf v1),
                                  panelvar2 := some (pyFloatOf v2) }))) :=
  ⟨fun p lay mp hlay hm => get_mappings_panelvars p lay mp hlay hm,
   fun lay m pl pl2 n1 hep h1 => enrichPanel_ok_panel_vars lay m pl pl2 n1 hep h1⟩

/-- Witness for C7 at the fixture plot: a grid facet on columns [cyl] and
rows [am] yields panelvar1 = cyl and panelvar2 = am, and the enriched
panel carries their values 4 and 1 from the layout row. -/
theorem c7_panelvars_witness :
    _get_mappings (PlotnineFigure.build pFx) = Except.ok mappingFx ∧
    (PlotnineFigure.build pFx).layout = some layFx ∧
    layFx.facet.typeName = "facet_grid" ∧
    layFx.facet.cols = "cyl" :: [] ∧
    layFx.facet.rows = "am" :: [] ∧
    mappingFx.panelvar1 = some "cyl" ∧
    mappingFx.panelvar2 = some "am" ∧
    enrichPanel layFx mappingFx panelFx = Except.ok panelEnrichedFx ∧
    (∃ row v1,
      List.find? (fun r => r.PANEL == (panelFx.panel : ℤ)) layFx.layout = some row ∧
      row.vals "cyl" = some v1 ∧
      ((mappingFx.panelvar2 = none ∧
        panelEnrichedFx.panel_vars =
          some { panelvar1 := some (pyFloatOf v1), panelvar2 := none }) ∨
       (∃ n2 v2, mappingFx.panelvar2 = some n2 ∧ row.vals n2 = some v2 ∧
        panelEnrichedFx.panel_vars =
          some { panelvar1 := some (pyFloatOf v1),
                 panelvar2 := some (pyFloatOf v2) }))) := by
  have hlx : _is_log_trans { typeName := "log10_trans", base := (10:ℚ) } = true := by decide
  have hly : _is_log_trans { typeName := "reverse_trans", base := (10:ℚ) } = false := by decide
  have hct : _is_log_trans { typeName := "log_trans", base := (2:ℚ) } = true := by decide
  have hrx : _is_reverse_trans { typeName := "log10_trans", base := (10:ℚ) } = false := by decide
  have hry : _is_reverse_trans { typeName := "reverse_trans", base := (10:ℚ) } = true := by decide
  have hm : _get_mappings (PlotnineFigure.build pFx) = Except.ok mappingFx := by
    simp [_get_mappings, PlotnineFigure.build, pFx, layFx, mappingFx]
  have hep : enrichPanel layFx mappingFx panelFx = Except.ok panelEnrichedFx := by
    simp [enrichPanel, layFx, rowFx, mappingFx, panelFx, panelEnrichedFx, pyGet,
      applyScaleTransforms, hlx, hly, hct, hrx, hry, pyFloatOf]
  have hgrid := (c7_panelvars.1 (PlotnineFigure.build pFx) layFx mappingFx rfl hm).1
    rfl
  have hcols := hgrid.1 "cyl" [] rfl
  exact ⟨hm, rfl, rfl, rfl, rfl, hcols.1, hcols.2.1 "am" [] rfl, hep,
    c7_panelvars.2 layFx mappingFx panelFx panelEnrichedFx "cyl" hep hcols.1⟩

/-- The x and y entries of the mapping computed by _get_mappings are
swapped relative to the plot aesthetic mapping when the coordinate
system is coord_flip. -/
lemma get_mappings_flip (p : PlotnineFigure) (lay : PlotnineLayout)
    (mp : CoordmapPanelMapping) (hlay : p.layout = some lay)
    (hflip : lay.coord.typeName = "coord_flip")
    (hm : _get_mappings p = Except.ok mp) :
    mp.x = p.mapping_y ∧ mp.y = p.mapping_x := by
  simp only [_get_mappings, hlay] at hm
  rw [hflip] at hm
  by_cases hg : lay.facet.typeName = "facet_grid"
  · rw [hg] at hm
    rcases hcols : lay.facet.cols with _ | ⟨c, cs⟩ <;>
      rcases hrows : lay.facet.rows with _ | ⟨r, rs⟩ <;>
      rw [hcols, hrows] at hm <;> simp at hm <;> subst hm <;>
      exact ⟨by simp, by simp⟩
  · by_cases hw : lay.facet.typeName = "facet_wrap"
    · simp only [hg, hw] at hm
      rcases hvars : lay.facet.vars with _ | ⟨v, vs⟩ <;> rw [hvars] at hm <;>
        simp at hm
      subst hm
      exact ⟨by simp, by simp⟩
    · simp only [hg, hw] at hm
      simp at hm
      subst hm
      exact ⟨by simp, by simp⟩

/-- A successfully enriched panel carries exactly the shared mapping. -/
lemma enrichPanel_ok_mapping (lay : PlotnineLayout) (m : CoordmapPanelMapping)
    (pl pl2 : CoordmapPanel) (hep : enrichPanel lay m pl = Except.ok pl2) :
    pl2.mapping = m := by
  obtain ⟨_, xscale, yscale, panel3, _, _, _, hpl2, _, _, _, _, _, _, hmap⟩ :=
    enrichPanel_ok_shape lay m pl pl2 hep
  subst hpl2
  rw [(applyScaleTransforms_preserves lay xscale yscale panel3).2.2.2.2.1, hmap]

/-- Every panel in the output of the enrichment loop carries the shared
mapping. -/
lemma enrichPanels_mem_mapping (lay : PlotnineLayout) (m : CoordmapPanelMapping) :
    ∀ (pls pls2 : List CoordmapPanel), enrichPanels lay m pls = Except.ok pls2 →
    ∀ pl2 ∈ pls2, pl2.mapping = m := by
  intro pls
  induction pls with
  | nil =>
    intro pls2 h pl2 hmem
    simp only [enrichPanels, Except.ok.injEq] at h
    subst h
    simp at hmem
  | cons pl rest ih =>
    intro pls2 h pl2 hmem
    simp only [enrichPanels] at h
    cases hep : enrichPanel lay m pl with
    | error e => rw [hep] at h; simp at h
    | ok q =>
      rw [hep] at h
      cases hrest : enrichPanels lay m rest with
      | error e => rw [hrest] at h; simp at h
      | ok qs =>
        rw [hrest] at h
        simp only [Except.ok.injEq] at h
        subst h
        rcases List.mem_cons.mp hmem with hq | hqs
        · subst hq
          exact enrichPanel_ok_mapping lay m pl pl2 hep
        · exact ih qs hrest pl2 hqs

/-! ## C8: coordinate flip swaps the x and y mapping -/

/-- C8: when the coordinate system of the built plot is coord_flip, the
x and y entries of the mapping reported on every panel of the enriched
coordinate map are the swapped top-level aesthetic names. -/
theorem c8_coord_flip (p : PlotnineFigure) (fig : Figure) (cm : Coordmap)
    (hflip : p.builtLayout.coord.typeName = "coord_flip")
    (hok : get_coordmap_plotnine p fig = Except.ok (some cm)) :
    ∀ pl ∈ cm.panels, pl.mapping.x = p.mapping_y ∧ pl.mapping.y = p.mapping_x := by
  intro pl hmem
  unfold get_coordmap_plotnine at hok
  cases hg : get_coordmap fig with
  | none => simp [get_coordmap] at hg
  | some cm0 =>
    rw [hg] at hok
    unfold enrichBuilt at hok
    cases hm : _get_mappings (PlotnineFigure.build (deepcopy p)) with
    | error e => rw [hm] at hok; simp at hok
    | ok m =>
      rw [hm] at hok
      simp only [PlotnineFigure.build, deepcopy] at hok hm
      cases he : enrichPanels p.builtLayout m cm0.panels with
      | error e => rw [he] at hok; simp at hok
      | ok panels2 =>
        rw [he] at hok
        simp only [Except.ok.injEq, Option.some.injEq] at hok
        have hflip2 := get_mappings_flip _ p.builtLayout m rfl hflip hm
        have hmap := enrichPanels_mem_mapping p.builtLayout m cm0.panels panels2 he pl
        rw [← hok] at hmem
        have := hmap hmem
        rw [this]
        exact hflip2

/-- Witness for C8 at the fixture pair, whose coordinate system is
coord_flip and whose aesthetic mapping is x = wt, y = mpg: the reported
mapping is x = mpg, y = wt. -/
theorem c8_coord_flip_witness :
    pFx.builtLayout.coord.typeName = "coord_flip" ∧
    get_coordmap_plotnine pFx figFx = Except.ok (some cmEnrichedFx) ∧
    panelEnrichedFx ∈ cmEnrichedFx.panels ∧
    pFx.mapping_x = some "wt" ∧ pFx.mapping_y = some "mpg" ∧
    panelEnrichedFx.mapping.x = some "mpg" ∧
    panelEnrichedFx.mapping.y = some "wt" := by
  have hlx : _is_log_trans { typeName := "log10_trans", base := (10:ℚ) } = true := by decide
  have hly : _is_log_trans { typeName := "reverse_trans", base := (10:ℚ) } = false := by decide
  have hct : _is_log_trans { typeName := "log_trans", base := (2:ℚ) } = true := by decide
  have hrx : _is_reverse_trans { typeName := "log10_trans", base := (10:ℚ) } = false := by decide
  have hry : _is_reverse_trans { typeName := "reverse_trans", base := (10:ℚ) } = true := by decide
  have hok : get_coordmap_plotnine pFx figFx = Except.ok (some cmEnrichedFx) := by
    simp [get_coordmap_plotnine, get_coordmap, figFx, coordmapPanels, get_coordmap_panel, axFx,
      deepcopy, PlotnineFigure.build, pFx, enrichBuilt, _get_mappings, layFx, enrichPanels,
      enrichPanel, rowFx, pyGet, applyScaleTransforms, hlx, hly, hct, hrx, hry,
      pyFloatOf, cmEnrichedFx, panelEnrichedFx, mappingFx]
    norm_num
  have hmem : panelEnrichedFx ∈ cmEnrichedFx.panels := by simp [cmEnrichedFx]
  have hres := c8_coord_flip pFx figFx cmEnrichedFx rfl hok panelEnrichedFx hmem
  exact ⟨rfl, hok, hmem, rfl, rfl, hres.1, hres.2⟩

/-- Setting the freshly appended cell of a store leaves the original
cells alone. -/
lemma set_append_length {α : Type} (l : List α) (a b : α) :
    (l ++ [a]).set l.length b = l ++ [b] := by
  induction l with
  | nil => rfl
  | cons x xs ih => simp [List.set, ih]

/-! ## C9: enrichment does not mutate caller-held objects -/

/-- C9: in the store-based embedding, get_coordmap_plotnine leaves every
caller-held plot specification unchanged (all mutation lands on the
freshly allocated deep copy, at an address past the original store) and
leaves the figure store untouched. -/
theorem c9_no_mutation (ps : List PlotnineFigure) (figs : List Figure) (pi fi : ℕ) :
    ((get_coordmap_plotnine_st ps figs pi fi).1.1).take ps.length = ps ∧
    (get_coordmap_plotnine_st ps figs pi fi).1.2 = figs := by
  unfold get_coordmap_plotnine_st
  cases hp : ps.get? pi <;> cases hf : figs.get? fi <;> simp only [hp, hf]
  · simp
  · simp
  · simp
  · rename_i p fig
    cases hcm : get_coordmap fig <;> simp only [hcm]
    · simp
    · rw [set_append_length]
      exact ⟨List.take_left ps [PlotnineFigure.build p], trivial⟩

/-- The result component of the store-based embedding coincides with the
pure embedding whenever the caller passes valid addresses. -/
lemma get_coordmap_plotnine_st_result (ps : List PlotnineFigure) (figs : List Figure)
    (pi fi : ℕ) (p : PlotnineFigure) (fig : Figure)
    (hp : ps.get? pi = some p) (hf : figs.get? fi = some fig) :
    (get_coordmap_plotnine_st ps figs pi fi).2 = get_coordmap_plotnine p fig := by
  unfold get_coordmap_plotnine_st get_coordmap_plotnine
  rw [hp, hf]
  cases hcm : get_coordmap fig <;> simp [hcm, deepcopy]

/-- The mapping produced by _get_mappings assigns panelvar2 only when it
also assigns panelvar1, and _get_mappings itself never raises the
panel_vars KeyError. -/
lemma get_mappings_pv (p : PlotnineFigure) :
    (∀ m, _get_mappings p = Except.ok m →
      (m.panelvar2.isSome = true → m.panelvar1.isSome = true)) ∧
    _get_mappings p ≠ Except.error PyErr.keyErrorPanelVars := by
  cases hlay : p.layout with
  | none =>
    constructor
    · intro m hm
      simp [_get_mappings, hlay] at hm
    · simp [_get_mappings, hlay]
  | some lay =>
    by_cases hg : lay.facet.typeName = "facet_grid"
    · rcases hcols : lay.facet.cols with _ | ⟨c, cs⟩
      · rcases hrows : lay.facet.rows with _ | ⟨r, rs⟩
        · constructor
          · intro m hm
            simp only [_get_mappings, hlay, hg, hcols, hrows] at hm
            simp at hm
            subst hm
            intro h2
            split at h2 <;> simp at h2
          · simp only [_get_mappings, hlay, hg, hcols, hrows]
            simp
        · constructor
          · intro m hm
            simp only [_get_mappings, hlay, hg, hcols, hrows] at hm
            simp at hm
            subst hm
            intro _
            simp
          · simp only [_get_mappings, hlay, hg, hcols, hrows]
            simp
      · rcases hrows : lay.facet.rows with _ | ⟨r, rs⟩
        · constructor
          · intro m hm
            simp only [_get_mappings, hlay, hg, hcols, hrows] at hm
            simp at hm
            subst hm
            intro _
            simp
          · simp only [_get_mappings, hlay, hg, hcols, hrows]
            simp
        · constructor
          · intro m hm
            simp only [_get_mappings, hlay, hg, hcols, hrows] at hm
            simp at hm
            subst hm
            intro _
            simp
          · simp only [_get_mappings, hlay, hg, hcols, hrows]
            simp
    · by_cases hw : lay.facet.typeName = "facet_wrap"
      · rcases hvars : lay.facet.vars with _ | ⟨v, vs⟩
        · constructor
          · intro m hm
            simp only [_get_mappings, hlay, hg, hw, hvars] at hm
            simp at hm
          · simp only [_get_mappings, hlay, hg, hw, hvars]
            simp
        · constructor
          · intro m hm
            simp only [_get_mappings, hlay, hg, hw, hvars] at hm
            simp at hm
            subst hm
            intro _
            simp
          · simp only [_get_mappings, hlay, hg, hw, hvars]
            simp
      · constructor
        · intro m hm
          simp only [_get_mappings, hlay, hg, hw] at hm
          simp at hm
          subst hm
          intro h2
          split at h2 <;> simp at h2
        · simp only [_get_mappings, hlay, hg, hw]
          simp

/-- Under the panelvar invariant of _get_mappings, the per-panel loop
body never raises the panel_vars KeyError. -/
lemma enrichPanel_no_pv_keyError (lay : PlotnineLayout) (m : CoordmapPanelMapping)
    (pl : CoordmapPanel)
    (hinv : m.panelvar2.isSome = true → m.panelvar1.isSome = true) :
    enrichPanel lay m pl ≠ Except.error PyErr.keyErrorPanelVars := by
  intro hbad
  simp only [enrichPanel] at hbad
  split at hbad
  next => simp at hbad
  next row hrow =>
    cases hm1 : m.panelvar1 with
    | some n1 =>
      simp only [hm1] at hbad
      cases hv1 : row.vals n1 with
      | none => simp [hv1] at hbad
      | some v1 =>
        simp only [hv1] at hbad
        cases hm2 : m.panelvar2 with
        | none =>
          simp only [hm2] at hbad
          cases hx : pyGet lay.panel_scales_x (row.SCALE_X - 1) with
          | none => simp [hx] at hbad
          | some xs =>
            simp only [hx] at hbad
            cases hy : pyGet lay.panel_scales_y (row.SCALE_Y - 1) with
            | none => simp [hy] at hbad
            | some ys => simp [hy] at hbad
        | some n2 =>
          simp only [hm2] at hbad
          cases hv2 : row.vals n2 with
          | none => simp [hv2] at hbad
          | some v2 =>
            simp only [hv2] at hbad
            cases hx : pyGet lay.panel_scales_x (row.SCALE_X - 1) with
            | none => simp [hx] at hbad
            | some xs =>
              simp only [hx] at hbad
              cases hy : pyGet lay.panel_scales_y (row.SCALE_Y - 1) with
              | none => simp [hy] at hbad
              | some ys => simp [hy] at hbad
    | none =>
      cases hm2 : m.panelvar2 with
      | some n2 =>
        have h2 : m.panelvar2.isSome = true := by rw [hm2]; rfl
        have h1 := hinv h2
        rw [hm1] at h1
        simp at h1
      | none =>
        simp only [hm1, hm2] at hbad
        cases hx : pyGet lay.panel_scales_x (row.SCALE_X - 1) with
        | none => simp [hx] at hbad
        | some xs =>
          simp only [hx] at hbad
          cases hy : pyGet lay.panel_scales_y (row.SCALE_Y - 1) with
          | none => simp [hy] at hbad
          | some ys => simp [hy] at hbad

/-- Under the panelvar invariant, the whole enrichment loop never raises
the panel_vars KeyError. -/
lemma enrichPanels_no_pv_keyError (lay : PlotnineLayout) (m : CoordmapPanelMapping)
    (hinv : m.panelvar2.isSome = true → m.panelvar1.isSome = true) :
    ∀ pls, enrichPanels lay m pls ≠ Except.error PyErr.keyErrorPanelVars := by
  intro pls
  induction pls with
  | nil => simp [enrichPanels]
  | cons pl rest ih =>
    intro hbad
    simp only [enrichPanels] at hbad
    cases hep : enrichPanel lay m pl with
    | error e =>
      rw [hep] at hbad
      simp at hbad
      subst hbad
      exact enrichPanel_no_pv_keyError lay m pl hinv hep
    | ok q =>
      rw [hep] at hbad
      cases hrest : enrichPanels lay m rest with
      | error e =>
        rw [hrest] at hbad
        simp at hbad
        subst hbad
        exact ih hrest
      | ok qs =>
        rw [hrest] at hbad
        simp at hbad

/-! ## C10: panelvar2 implies panelvar1, so the panel_vars write is safe -/

/-- C10: every mapping produced by _get_mappings has panelvar2 present
only when panelvar1 is present, and consequently get_coordmap_plotnine
never raises the KeyError that writing panelvar2 into a missing
panel_vars dictionary would produce. -/
theorem c10_panelvar2_safety :
    (∀ (p : PlotnineFigure) (m : CoordmapPanelMapping),
      _get_mappings p = Except.ok m →
      m.panelvar2.isSome = true → m.panelvar1.isSome = true) ∧
    (∀ (p : PlotnineFigure) (fig : Figure),
      get_coordmap_plotnine p fig ≠ Except.error PyErr.keyErrorPanelVars) := by
  constructor
  · intro p m hm
    exact (get_mappings_pv p).1 m hm
  · intro p fig hbad
    unfold get_coordmap_plotnine at hbad
    cases hg : get_coordmap fig with
    | none => rw [hg] at hbad; simp at hbad
    | some cm0 =>
      rw [hg] at hbad
      unfold enrichBuilt at hbad
      cases hm : _get_mappings (PlotnineFigure.build (deepcopy p)) with
      | error e =>
        rw [hm] at hbad
        simp at hbad
        subst hbad
        exact (get_mappings_pv (PlotnineFigure.build (deepcopy p))).2 hm
      | ok m =>
        rw [hm] at hbad
        simp only [PlotnineFigure.build, deepcopy] at hbad hm
        cases he : enrichPanels p.builtLayout m cm0.panels with
        | error e =>
          rw [he] at hbad
          simp at hbad
          subst hbad
          exact enrichPanels_no_pv_keyError p.builtLayout m
            ((get_mappings_pv _).1 m hm) cm0.panels he
        | ok ps2 =>
          rw [he] at hbad
          simp at hbad

/-- Witness for C10 at the fixture plot, whose mapping has both paneling
variables present. -/
theorem c10_panelvar2_safety_witness :
    _get_mappings (PlotnineFigure.build pFx) = Except.ok mappingFx ∧
    mappingFx.panelvar2.isSome = true ∧
    mappingFx.panelvar1.isSome = true ∧
    get_coordmap_plotnine pFx figFx ≠ Except.error PyErr.keyErrorPanelVars := by
  have hm : _get_mappings (PlotnineFigure.build pFx) = Except.ok mappingFx := by
    simp [_get_mappings, PlotnineFigure.build, pFx, layFx, mappingFx]
  exact ⟨hm, rfl,
    c10_panelvar2_safety.1 (PlotnineFigure.build pFx) mappingFx hm rfl,
    c10_panelvar2_safety.2 pFx figFx⟩

end Shiny
